import Mathlib

/-!
Power board firmware (`code/main.cpp`).

A shallow embedding of the CAN part of the power board firmware: the two
initialisation routines `initCANBus` and `initCANMOB`, the remote-request
handler `ISR(CAN_INT_vect)` and the periodic handler `ISR(TIMER1_COMPA_vect)`.

* Each routine is the list of the events of its body, in program order: register
  writes, ADC reads, LED pulses, `cli`/`sei`.
* The CAN controller is a register file: the general registers and, per message
  object (MOb), the registers reached through `CANPAGE`.  `step` gives the effect of
  one event on it.
* `v /= d` on a `uint16_t` is computed in floating point and converted back by
  truncation; `divAssign` models it with correctly rounded binary floating point.
-/

namespace PowerBoard

/-! ## Constants of `main.cpp` -/

/-- The identifier of the request Power card message. -/
def ID_POWER_1 : Nat := 0x091

/-- The identifier of the Voltage Alert message. -/
def ID_ALERT : Nat := 0x080

/-- The minimal reference voltage (scaled units). -/
def MIN_VOLTAGE : Nat := 1440

/-! ## Floating point division followed by truncation

A finite floating point value is kept as a fraction `(n, d)` of naturals standing for
`n / d`, with `d` a power of two.  Only positive values occur, and all of them lie far
inside the normal range, so the exponent range is not modelled. -/

/-- Number of bits of a value below 256. -/
def bitLenByte (n : Nat) : Nat :=
  if n < 1 then 0 else if n < 2 then 1 else if n < 4 then 2 else if n < 8 then 3
  else if n < 16 then 4 else if n < 32 then 5 else if n < 64 then 6
  else if n < 128 then 7 else 8

/-- Number of bits of `n`, one byte at a time (`fuel` bounds the number of bytes). -/
def bitLenAux : Nat → Nat → Nat
  | 0, _ => 0
  | fuel + 1, n => if n < 256 then bitLenByte n else bitLenAux fuel (n / 256) + 8

/-- Position of the leading one bit of `n` (`⌊log₂ n⌋` for `n > 0`). -/
def ilog2 (n : Nat) : Nat := bitLenAux n n - 1

/-- Nearest natural number to `n / d`, a tie going to the even neighbour. -/
def divRoundEven (n d : Nat) : Nat :=
  if d < 2 * (n % d) ∨ (2 * (n % d) = d ∧ n / d % 2 = 1) then n / d + 1 else n / d

/-- The rational `num / den` rounded to the nearest floating point value with a
significand of `p` bits (round to nearest, ties to even).  The quotient is scaled by a
power of two so that its integer part has `p` bits, rounded to an integer, and scaled
back. -/
def fround (p num den : Nat) : Nat × Nat :=
  if num = 0 then (0, 1)
  else
    let up := ilog2 den + p - ilog2 num
    let dn := ilog2 num - (ilog2 den + p)
    let a := num * 2 ^ up
    let b := den * 2 ^ dn
    if 2 ^ p * b ≤ a then (divRoundEven a (2 * b) * (2 * 2 ^ dn), 2 ^ up)
    else (divRoundEven a b * 2 ^ dn, 2 ^ up)

/-- Floating point division `x / y`, correctly rounded. -/
def fdiv (p : Nat) (x y : Nat × Nat) : Nat × Nat :=
  fround p (x.1 * y.2) (x.2 * y.1)

/-- The floating point value of `v / (num / den)` cut to its integer part: `v` is
converted to floating point, the decimal literal `num / den` is rounded to floating
point, the two are divided, and the quotient is truncated toward zero. -/
def truncDiv (p v num den : Nat) : Nat :=
  let q := fdiv p (fround p v 1) (fround p num den)
  q.1 / q.2

/-- Significand width of `double` as avr-gcc compiles it by default (IEEE binary32). -/
def DBL_MANT_DIG : Nat := 24

/-- The statement `v /= num / den;` on a `uint16_t v`: the new value of `v`. -/
def divAssign (v num den : Nat) : Nat :=
  truncDiv DBL_MANT_DIG v num den % 65536

/-- The four measured quantities, named as in the specification. -/
inductive Channel where
  | bus1
  | bus2
  | batteryVoltage
  | batteryCurrent
  deriving DecidableEq, Repr

/-- Numerator of the decimal divisor applied to a channel. -/
def Channel.num : Channel → Nat
  | .bus1 => 824121
  | .bus2 => 2046
  | .batteryVoltage => 613636
  | .batteryCurrent => 32222

/-- Denominator (a power of ten) of the decimal divisor applied to a channel. -/
def Channel.den : Channel → Nat
  | .bus1 => 1000000
  | .bus2 => 1000
  | .batteryVoltage => 1000000
  | .batteryCurrent => 10000

/-- The divisor of a channel as a rational number: 0.824121, 2.046, 0.613636, 3.2222. -/
def Channel.divisor (c : Channel) : ℚ := (c.num : ℚ) / (c.den : ℚ)

/-- The scaled value the handlers compute for a raw sample of a channel. -/
def scale (c : Channel) (raw : Nat) : Nat := divAssign raw c.num c.den

/-- The value the specification words give: `raw / d` rounded to the nearest integer,
truncated to 16 bits. -/
def specScale (c : Channel) (raw : Nat) : ℤ := round ((raw : ℚ) / c.divisor) % 65536

/-! ## The CAN controller as a register file -/

/-- The registers the firmware accesses. -/
inductive Reg where
  | DDRC | PORTC | TIFR1
  | CANGCON | CANBT1 | CANBT2 | CANBT3 | CANHPMOB | CANGIE | CANIE2
  | CANPAGE
  | CANIDT1 | CANIDT2 | CANIDT3 | CANIDT4
  | CANIDM1 | CANIDM2 | CANIDM3 | CANIDM4
  | CANSTMOB | CANCDMOB | CANMSG
  deriving DecidableEq, Repr

/-- The registers of one message object. -/
structure MOb where
  CANIDT1 : Nat
  CANIDT2 : Nat
  CANIDT3 : Nat
  CANIDT4 : Nat
  CANIDM1 : Nat
  CANIDM2 : Nat
  CANIDM3 : Nat
  CANIDM4 : Nat
  CANSTMOB : Nat
  CANCDMOB : Nat
  CANMSG : Nat → Nat

/-- The CAN controller: general registers and the message objects. -/
structure CAN where
  CANGCON : Nat
  CANBT1 : Nat
  CANBT2 : Nat
  CANBT3 : Nat
  CANHPMOB : Nat
  CANGIE : Nat
  CANIE2 : Nat
  CANPAGE : Nat
  mob : Nat → MOb

/-- Function update at one natural index. -/
def upd {α : Type} (f : Nat → α) (k : Nat) (v : α) : Nat → α :=
  fun i => if i = k then v else f i

/-- The message object selected by `CANPAGE` (bits 7..4, MOBNB). -/
def CAN.MOBNB (s : CAN) : Nat := s.CANPAGE / 16 % 16

/-- The data byte index selected by `CANPAGE` (bits 2..0, INDX). -/
def CAN.INDX (s : CAN) : Nat := s.CANPAGE % 8

/-- The auto-increment bit of `CANPAGE` (bit 3, AINC; 0 means the index advances). -/
def CAN.AINC (s : CAN) : Nat := s.CANPAGE / 8 % 2

/-- Change the registers of the selected message object. -/
def CAN.onPage (s : CAN) (f : MOb → MOb) : CAN :=
  { s with mob := upd s.mob s.MOBNB (f (s.mob s.MOBNB)) }

/-- The value read from a register (registers outside the CAN controller read 0). -/
def CAN.read (s : CAN) : Reg → Nat
  | .DDRC => 0
  | .PORTC => 0
  | .TIFR1 => 0
  | .CANGCON => s.CANGCON
  | .CANBT1 => s.CANBT1
  | .CANBT2 => s.CANBT2
  | .CANBT3 => s.CANBT3
  | .CANHPMOB => s.CANHPMOB
  | .CANGIE => s.CANGIE
  | .CANIE2 => s.CANIE2
  | .CANPAGE => s.CANPAGE
  | .CANIDT1 => (s.mob s.MOBNB).CANIDT1
  | .CANIDT2 => (s.mob s.MOBNB).CANIDT2
  | .CANIDT3 => (s.mob s.MOBNB).CANIDT3
  | .CANIDT4 => (s.mob s.MOBNB).CANIDT4
  | .CANIDM1 => (s.mob s.MOBNB).CANIDM1
  | .CANIDM2 => (s.mob s.MOBNB).CANIDM2
  | .CANIDM3 => (s.mob s.MOBNB).CANIDM3
  | .CANIDM4 => (s.mob s.MOBNB).CANIDM4
  | .CANSTMOB => (s.mob s.MOBNB).CANSTMOB
  | .CANCDMOB => (s.mob s.MOBNB).CANCDMOB
  | .CANMSG => (s.mob s.MOBNB).CANMSG s.INDX

/-- The effect of storing `v` in a register.  A general register keeps the value; a
message object register goes to the object selected by `CANPAGE`; `CANMSG` goes to the
selected data byte, after which the index advances when AINC is 0.  Registers outside
the CAN controller leave it untouched. -/
def CAN.write (s : CAN) (r : Reg) (v : Nat) : CAN :=
  match r with
  | .DDRC => s
  | .PORTC => s
  | .TIFR1 => s
  | .CANGCON => { s with CANGCON := v }
  | .CANBT1 => { s with CANBT1 := v }
  | .CANBT2 => { s with CANBT2 := v }
  | .CANBT3 => { s with CANBT3 := v }
  | .CANHPMOB => { s with CANHPMOB := v }
  | .CANGIE => { s with CANGIE := v }
  | .CANIE2 => { s with CANIE2 := v }
  | .CANPAGE => { s with CANPAGE := v }
  | .CANIDT1 => s.onPage fun m => { m with CANIDT1 := v }
  | .CANIDT2 => s.onPage fun m => { m with CANIDT2 := v }
  | .CANIDT3 => s.onPage fun m => { m with CANIDT3 := v }
  | .CANIDT4 => s.onPage fun m => { m with CANIDT4 := v }
  | .CANIDM1 => s.onPage fun m => { m with CANIDM1 := v }
  | .CANIDM2 => s.onPage fun m => { m with CANIDM2 := v }
  | .CANIDM3 => s.onPage fun m => { m with CANIDM3 := v }
  | .CANIDM4 => s.onPage fun m => { m with CANIDM4 := v }
  | .CANSTMOB => s.onPage fun m => { m with CANSTMOB := v }
  | .CANCDMOB => s.onPage fun m => { m with CANCDMOB := v }
  | .CANMSG =>
    let s1 := s.onPage fun m => { m with CANMSG := upd m.CANMSG s.INDX v }
    if s.AINC = 0 then { s1 with CANPAGE := s.CANPAGE / 8 * 8 + (s.INDX + 1) % 8 } else s1

/-- The two indicator LEDs. -/
inductive Led where
  | red
  | yellow
  deriving DecidableEq, Repr

/-- The ADC inputs the handlers read. -/
inductive AdcMux where
  | ADC_MUX_ADC2
  | ADC_MUX_ADC3
  | ADC_MUX_ADC4
  | ADC_MUX_ADC7
  deriving DecidableEq, Repr

/-- One event of a routine body. -/
inductive Ev where
  /-- Interrupts disabled: `cli()`. -/
  | cli
  /-- Interrupts enabled: `sei()`. -/
  | sei
  /-- Assignment `REG = v`. -/
  | write (r : Reg) (v : Nat)
  /-- Read-modify-write `REG |= v`. -/
  | orEq (r : Reg) (v : Nat)
  /-- Read-modify-write `REG &= v`. -/
  | andEq (r : Reg) (v : Nat)
  /-- LED pulse `led.blink()` or `led.blink(ms)`. -/
  | blink (l : Led) (ms : Option Nat)
  /-- Call `adc_read_10bit(mux, ADC_VREF_AVCC)` that returned `v`. -/
  | adc (mux : AdcMux) (v : Nat)

/-- The register an event stores to and the value stored, if it stores at all. -/
def CAN.store (s : CAN) : Ev → Option (Reg × Nat)
  | .cli => none
  | .sei => none
  | .write r v => some (r, v)
  | .orEq r v => some (r, s.read r ||| v)
  | .andEq r v => some (r, s.read r &&& v)
  | .blink _ _ => none
  | .adc _ _ => none

/-- The effect of one event on the CAN controller. -/
def step (s : CAN) (e : Ev) : CAN :=
  match s.store e with
  | some (r, v) => s.write r v
  | none => s

/-- The effect of a sequence of events. -/
def exec (s : CAN) (tr : List Ev) : CAN := tr.foldl step s

/-! ## Frames -/

/-- A standard CAN frame: 11-bit identifier, remote-request flag, data length code and
payload bytes. -/
structure Frame where
  id : Nat
  rtr : Bool
  dlc : Nat
  data : List Nat
  deriving DecidableEq, Repr

/-- The configuration field CONMOB of a message object (`CANCDMOB` bits 7..6):
0 disabled, 1 transmission enabled, 2 reception enabled, 3 frame buffer reception. -/
def MOb.CONMOB (m : MOb) : Nat := m.CANCDMOB / 64 % 4

/-- The data length code of a message object (`CANCDMOB` bits 3..0). -/
def MOb.DLC (m : MOb) : Nat := m.CANCDMOB % 16

/-- The identifier tag of a message object in the standard format: `CANIDT1` holds
identifier bits 10..3 and `CANIDT2` bits 7..5 hold identifier bits 2..0. -/
def MOb.idTag (m : MOb) : Nat := m.CANIDT1 % 256 * 8 + m.CANIDT2 / 32 % 8

/-- The remote-request tag of a message object (`CANIDT4` bit 2). -/
def MOb.rtrTag (m : MOb) : Nat := m.CANIDT4 / 4 % 2

/-- The identifier mask of a message object, laid out like the identifier tag. -/
def MOb.idMask (m : MOb) : Nat := m.CANIDM1 % 256 * 8 + m.CANIDM2 / 32 % 8

/-- The remote-request mask of a message object (`CANIDM4` bit 2). -/
def MOb.rtrMask (m : MOb) : Nat := m.CANIDM4 / 4 % 2

/-- The message object is enabled for transmission. -/
def MOb.txEnabled (m : MOb) : Bool := decide (m.CONMOB = 1)

/-- The message object is in a reception mode. -/
def MOb.rxMode (m : MOb) : Bool := decide (m.CONMOB = 2 ∨ m.CONMOB = 3)

/-- The frame a message object holds for transmission. -/
def MOb.frame (m : MOb) : Frame :=
  { id := m.idTag
    rtr := decide (m.rtrTag = 1)
    dlc := m.DLC
    data := (List.range (min m.DLC 8)).map m.CANMSG }

/-- The acceptance filter of the controller for a standard frame: a message object
enabled for reception takes the frame when every identifier bit whose mask bit is set
equals the tag bit, and the remote-request flag equals its tag when its mask bit is
set. -/
def MOb.accepts (m : MOb) (f : Frame) : Bool :=
  decide (m.CONMOB = 2) &&
  decide ((f.id ^^^ m.idTag) &&& m.idMask = 0) &&
  decide (m.rtrMask = 1 → (if f.rtr then 1 else 0) = m.rtrTag)

/-- The frames handed to the controller for transmission while a sequence of events
runs: each store to `CANCDMOB` that enables transmission yields the selected message
object and the frame it then holds. -/
def sent (s : CAN) : List Ev → List (Nat × Frame)
  | [] => []
  | e :: tr =>
    match s.store e with
    | some (.CANCDMOB, v) =>
      if v / 64 % 4 = 1 then (s.MOBNB, ((step s e).mob s.MOBNB).frame) :: sent (step s e) tr
      else sent (step s e) tr
    | _ => sent (step s e) tr

/-! ## The routines of `main.cpp` -/

/-- The cast `(uint8_t) x`. -/
def uint8_t (x : Nat) : Nat := x % 256

/-- The routine `initCANBus()`.  The bit number `SWRES` comes from the device header. -/
def initCANBus (SWRES : Nat) : List Ev :=
  [ .orEq .DDRC 0x80,
    .andEq .PORTC 0x7F,
    .write .CANGCON (1 <<< SWRES),
    .write .CANGCON 0x02,
    .write .CANBT1 0x06,
    .write .CANBT2 0x04,
    .write .CANBT3 0x13,
    .write .CANHPMOB 0x00,
    .orEq .CANGIE 0xA0 ]

/-- The routine `initCANMOB()`. -/
def initCANMOB : List Ev :=
  [ .write .CANPAGE 0x10,
    .write .CANIDT4 0x04,
    .write .CANIDT3 0x00,
    .write .CANIDT2 (uint8_t ((ID_POWER_1 &&& 0x00F) <<< 5)),
    .write .CANIDT1 (uint8_t (ID_POWER_1 >>> 3)),
    .write .CANIDM4 0x04,
    .write .CANIDM3 0xFF,
    .write .CANIDM2 0xFF,
    .write .CANIDM1 0xFF,
    .write .CANCDMOB 0x80,
    .write .CANIE2 0x02,
    .sei ]

/-- The CAN part of `main()`: `initCANBus(); initCANMOB();`. -/
def init (SWRES : Nat) : List Ev := initCANBus SWRES ++ initCANMOB

/-- The values returned by the four `adc_read_10bit` calls of the remote-request
handler, named after the variables that receive them. -/
structure Samples where
  v_12_1 : Nat
  v_5 : Nat
  v_bat : Nat
  i_bat : Nat

/-- The handler `ISR(CAN_INT_vect)`. -/
def CAN_INT_vect (adc : Samples) : List Ev :=
  let v_12_1 := divAssign adc.v_12_1 824121 1000000
  let v_5 := divAssign adc.v_5 2046 1000
  let v_bat := divAssign adc.v_bat 613636 1000000
  let i_bat := divAssign adc.i_bat 32222 10000
  [ .cli,
    .blink .yellow (some 50),
    .write .CANPAGE 0x10,
    .write .CANSTMOB 0x00,
    .write .CANCDMOB 0x80,
    .write .CANIE2 0x02,
    .adc .ADC_MUX_ADC7 adc.v_12_1,
    .adc .ADC_MUX_ADC4 adc.v_5,
    .adc .ADC_MUX_ADC2 adc.v_bat,
    .adc .ADC_MUX_ADC3 adc.i_bat,
    .write .CANPAGE 0x00,
    .write .CANIDT4 0x00,
    .write .CANIDT3 0x00,
    .write .CANIDT2 (uint8_t ((ID_POWER_1 &&& 0x00F) <<< 5)),
    .write .CANIDT1 (uint8_t (ID_POWER_1 >>> 3)),
    .write .CANMSG (uint8_t (v_12_1 >>> 8)), .write .CANPAGE 0x01,
    .write .CANMSG (uint8_t v_12_1), .write .CANPAGE 0x02,
    .write .CANMSG (uint8_t (v_5 >>> 8)), .write .CANPAGE 0x03,
    .write .CANMSG (uint8_t v_5), .write .CANPAGE 0x04,
    .write .CANMSG (uint8_t (v_bat >>> 8)), .write .CANPAGE 0x05,
    .write .CANMSG (uint8_t v_bat), .write .CANPAGE 0x06,
    .write .CANMSG (uint8_t (i_bat >>> 8)), .write .CANPAGE 0x07,
    .write .CANMSG (uint8_t i_bat),
    .write .CANCDMOB 0x48,
    .sei ]

/-- The handler `ISR(TIMER1_COMPA_vect)`; `raw` is the value `adc_read_10bit` returned. -/
def TIMER1_COMPA_vect (raw : Nat) : List Ev :=
  let v_bat := divAssign raw 613636 1000000
  [ .cli,
    .adc .ADC_MUX_ADC2 raw,
    .orEq .TIFR1 0 ] ++
  (if v_bat < MIN_VOLTAGE then
    [ .blink .red none,
      .write .CANPAGE 0x20,
      .write .CANIDT4 0x00,
      .write .CANIDT3 0x00,
      .write .CANIDT2 (uint8_t ((ID_ALERT &&& 0x00F) <<< 5)),
      .write .CANIDT1 (uint8_t (ID_ALERT >>> 3)),
      .write .CANMSG (uint8_t (v_bat >>> 8)), .write .CANPAGE 0x21,
      .write .CANMSG (uint8_t v_bat),
      .write .CANCDMOB 0x42 ]
  else []) ++
  [ .sei ]

/-- One handler invocation together with what the ADC returned during it. -/
inductive Handler where
  | request (adc : Samples)
  | tick (raw : Nat)

/-- The events of one handler invocation. -/
def Handler.trace : Handler → List Ev
  | .request adc => CAN_INT_vect adc
  | .tick raw => TIMER1_COMPA_vect raw

/-- The events of a sequence of handler invocations, one after the other. -/
def traceOf : List Handler → List Ev
  | [] => []
  | h :: hs => h.trace ++ traceOf hs

/-- The controller after a sequence of handler invocations. -/
def run (s : CAN) (hs : List Handler) : CAN := exec s (traceOf hs)

/-- A register file with every register cleared. -/
def CAN.cleared : CAN :=
  { CANGCON := 0, CANBT1 := 0, CANBT2 := 0, CANBT3 := 0, CANHPMOB := 0, CANGIE := 0,
    CANIE2 := 0, CANPAGE := 0,
    mob := fun _ =>
      { CANIDT1 := 0, CANIDT2 := 0, CANIDT3 := 0, CANIDT4 := 0,
        CANIDM1 := 0, CANIDM2 := 0, CANIDM3 := 0, CANIDM4 := 0,
        CANSTMOB := 0, CANCDMOB := 0, CANMSG := fun _ => 0 } }

/-- A power-on register file that is cleared except for `CANCDMOB` of MOb 2, which
holds 0x80. -/
def CAN.staleMob2 : CAN :=
  { CAN.cleared with
    mob := upd CAN.cleared.mob 2 { CAN.cleared.mob 2 with CANCDMOB := 0x80 } }

/-! ## Expected frames -/

/-- High byte of a 16-bit value. -/
def hi (v : Nat) : Nat := v / 256 % 256

/-- Low byte of a 16-bit value. -/
def lo (v : Nat) : Nat := v % 256

/-- The response frame for four raw samples: identifier `ID_POWER_1`, a data frame of
8 bytes, the scaled values of bus 1, bus 2, battery voltage and battery current, each
high byte first. -/
def response (adc : Samples) : Frame :=
  { id := ID_POWER_1
    rtr := false
    dlc := 8
    data :=
      [ hi (scale .bus1 adc.v_12_1), lo (scale .bus1 adc.v_12_1),
        hi (scale .bus2 adc.v_5), lo (scale .bus2 adc.v_5),
        hi (scale .batteryVoltage adc.v_bat), lo (scale .batteryVoltage adc.v_bat),
        hi (scale .batteryCurrent adc.i_bat), lo (scale .batteryCurrent adc.i_bat) ] }

/-- The alert frame for a raw battery sample: identifier `ID_ALERT`, a data frame of
2 bytes, the scaled battery voltage, high byte first. -/
def alert (raw : Nat) : Frame :=
  { id := ID_ALERT
    rtr := false
    dlc := 2
    data := [ hi (scale .batteryVoltage raw), lo (scale .batteryVoltage raw) ] }

/-! ## Order of events -/

/-- The event is an ADC read. -/
def Ev.isAdc : Ev → Bool
  | .adc _ _ => true
  | _ => false

/-- The events of a routine that come before its first ADC read. -/
def beforeAdc (tr : List Ev) : List Ev := tr.takeWhile fun e => !e.isAdc

/-- What a store to a register means for the frame of a message object. -/
inductive Access where
  | ident (j : Nat)
  | payload
  | control
  | other

/-- The role of each register in a transmission: the four identifier tag registers,
the payload register, the control register `CANCDMOB`, and the rest. -/
def Reg.access : Reg → Access
  | .CANIDT1 => .ident 1
  | .CANIDT2 => .ident 2
  | .CANIDT3 => .ident 3
  | .CANIDT4 => .ident 4
  | .CANMSG => .payload
  | .CANCDMOB => .control
  | _ => .other

/-- A monitor for the order of stores in a sequence of events.  Per message object it
records whether the last store to `CANCDMOB` enabled transmission (`send`) and which
identifier registers and payload bytes were stored since transmission was last enabled.
`sendAfterFill` stays true while every store that enables transmission finds the four
identifier registers and the payload bytes below the data length code stored;
`noWriteWhileSend` stays true while no identifier or payload store goes to a message
object whose `send` mark is set. -/
structure Audit where
  can : CAN
  send : Nat → Bool
  idSeen : Nat → Nat → Bool
  msgSeen : Nat → Nat → Bool
  sendAfterFill : Bool
  noWriteWhileSend : Bool

/-- The monitor before any event: no mark, nothing stored, nothing violated. -/
def Audit.start (s : CAN) : Audit :=
  { can := s
    send := fun _ => false
    idSeen := fun _ _ => false
    msgSeen := fun _ _ => false
    sendAfterFill := true
    noWriteWhileSend := true }

/-- The identifier registers and the first `dlc` payload bytes of message object `k`
have been stored. -/
def Audit.filled (a : Audit) (k dlc : Nat) : Bool :=
  a.idSeen k 1 && a.idSeen k 2 && a.idSeen k 3 && a.idSeen k 4 &&
    (List.range dlc).all (a.msgSeen k)

/-- The monitor after one more event. -/
def Audit.step (a : Audit) (e : Ev) : Audit :=
  let k := a.can.MOBNB
  let a1 : Audit := { a with can := PowerBoard.step a.can e }
  match a.can.store e with
  | none => a1
  | some (r, v) =>
    match r.access with
    | .ident j =>
      { a1 with
        idSeen := upd a.idSeen k (upd (a.idSeen k) j true)
        noWriteWhileSend := if a.send k then false else a.noWriteWhileSend }
    | .payload =>
      { a1 with
        msgSeen := upd a.msgSeen k (upd (a.msgSeen k) a.can.INDX true)
        noWriteWhileSend := if a.send k then false else a.noWriteWhileSend }
    | .control =>
      if v / 64 % 4 = 1 then
        { a1 with
          send := upd a.send k true
          idSeen := upd a.idSeen k (fun _ => false)
          msgSeen := upd a.msgSeen k (fun _ => false)
          sendAfterFill := if a.filled k (v % 16) then a.sendAfterFill else false }
      else { a1 with send := upd a.send k false }
    | .other => a1

/-- The monitor after a sequence of events. -/
def Audit.run (a : Audit) (tr : List Ev) : Audit := tr.foldl Audit.step a

/-- The receive slot configuration two message objects share: every register but the
status register agrees. -/
def MOb.sameConfig (m n : MOb) : Prop :=
  m.CANIDT1 = n.CANIDT1 ∧ m.CANIDT2 = n.CANIDT2 ∧ m.CANIDT3 = n.CANIDT3 ∧
  m.CANIDT4 = n.CANIDT4 ∧ m.CANIDM1 = n.CANIDM1 ∧ m.CANIDM2 = n.CANIDM2 ∧
  m.CANIDM3 = n.CANIDM3 ∧ m.CANIDM4 = n.CANIDM4 ∧ m.CANCDMOB = n.CANCDMOB ∧
  m.CANMSG = n.CANMSG

/-- The order property of a sequence of events started in state `s`: every store that
enables transmission follows the stores of its frame, and no identifier or payload
store goes to a message object marked for sending. -/
def ordered (s : CAN) (tr : List Ev) : Bool :=
  ((Audit.start s).run tr).sendAfterFill && ((Audit.start s).run tr).noWriteWhileSend

/-! ## Arithmetic of the scaling -/

set_option maxRecDepth 100000 in
/-- On the 10-bit range the binary32 quotient by 0.824121, truncated, is the integer
part of the exact quotient. -/
theorem truncDiv_bus1 :
    ∀ r, r < 1024 → truncDiv 24 r 824121 1000000 = r * 1000000 / 824121 := by
  decide!

set_option maxRecDepth 100000 in
/-- On the 10-bit range the binary32 quotient by 2.046, truncated, is the integer part
of the exact quotient. -/
theorem truncDiv_bus2 :
    ∀ r, r < 1024 → truncDiv 24 r 2046 1000 = r * 1000 / 2046 := by
  decide!

set_option maxRecDepth 100000 in
/-- On the 10-bit range the binary32 quotient by 0.613636, truncated, is the integer
part of the exact quotient. -/
theorem truncDiv_batteryVoltage :
    ∀ r, r < 1024 → truncDiv 24 r 613636 1000000 = r * 1000000 / 613636 := by
  decide!

set_option maxRecDepth 100000 in
/-- On the 10-bit range the binary32 quotient by 3.2222, truncated, is the integer part
of the exact quotient. -/
theorem truncDiv_batteryCurrent :
    ∀ r, r < 1024 → truncDiv 24 r 32222 10000 = r * 10000 / 32222 := by
  decide!

/-- On the 10-bit range the truncated floating point quotient of every channel is the
integer part of the exact quotient `raw / d`. -/
theorem truncDiv_eq_div (c : Channel) (r : Nat) (h : r < 1024) :
    truncDiv DBL_MANT_DIG r c.num c.den = r * c.den / c.num := by
  cases c
  · exact truncDiv_bus1 r h
  · exact truncDiv_bus2 r h
  · exact truncDiv_batteryVoltage r h
  · exact truncDiv_batteryCurrent r h

set_option maxRecDepth 100000 in
/-- With a 53-bit significand (avr-gcc with 64-bit `double`) the truncated quotient by
0.824121 is the same integer part. -/
theorem truncDiv53_bus1 :
    ∀ r, r < 1024 → truncDiv 53 r 824121 1000000 = r * 1000000 / 824121 := by
  decide!

set_option maxRecDepth 100000 in
/-- With a 53-bit significand the truncated quotient by 2.046 is the same integer
part. -/
theorem truncDiv53_bus2 :
    ∀ r, r < 1024 → truncDiv 53 r 2046 1000 = r * 1000 / 2046 := by
  decide!

set_option maxRecDepth 100000 in
/-- With a 53-bit significand the truncated quotient by 0.613636 is the same integer
part. -/
theorem truncDiv53_batteryVoltage :
    ∀ r, r < 1024 → truncDiv 53 r 613636 1000000 = r * 1000000 / 613636 := by
  decide!

set_option maxRecDepth 100000 in
/-- With a 53-bit significand the truncated quotient by 3.2222 is the same integer
part. -/
theorem truncDiv53_batteryCurrent :
    ∀ r, r < 1024 → truncDiv 53 r 32222 10000 = r * 10000 / 32222 := by
  decide!

/-- The scaled values do not depend on whether `double` has a 24-bit or a 53-bit
significand. -/
theorem truncDiv_width_irrelevant (c : Channel) (r : Nat) (h : r < 1024) :
    truncDiv 53 r c.num c.den = truncDiv DBL_MANT_DIG r c.num c.den := by
  rw [truncDiv_eq_div c r h]
  cases c
  · exact truncDiv53_bus1 r h
  · exact truncDiv53_bus2 r h
  · exact truncDiv53_batteryVoltage r h
  · exact truncDiv53_batteryCurrent r h

/-- The integer part of the exact quotient stays below 1668 on the 10-bit range. -/
theorem div_le_1667 (c : Channel) (r : Nat) (h : r < 1024) :
    r * c.den / c.num ≤ 1667 := by
  cases c <;> simp only [Channel.num, Channel.den] <;> omega

/-- On the 10-bit range the scaled value is the integer part of the exact quotient. -/
theorem scale_eq_div (c : Channel) (r : Nat) (h : r < 1024) :
    scale c r = r * c.den / c.num := by
  have h1 := truncDiv_eq_div c r h
  have h2 := div_le_1667 c r h
  unfold scale divAssign
  rw [h1]
  omega

/-! ## Register values of the identifier casts -/

/-- Low identifier bits of `ID_POWER_1` as stored in `CANIDT2`. -/
theorem idt2_power : uint8_t ((ID_POWER_1 &&& 0x00F) <<< 5) = 0x20 := by decide

/-- High identifier bits of `ID_POWER_1` as stored in `CANIDT1`. -/
theorem idt1_power : uint8_t (ID_POWER_1 >>> 3) = 0x12 := by decide

/-- Low identifier bits of `ID_ALERT` as stored in `CANIDT2`. -/
theorem idt2_alert : uint8_t ((ID_ALERT &&& 0x00F) <<< 5) = 0x00 := by decide

/-- High identifier bits of `ID_ALERT` as stored in `CANIDT1`. -/
theorem idt1_alert : uint8_t (ID_ALERT >>> 3) = 0x10 := by decide

/-! ## Effect of the routines -/

/-- Running two sequences of events one after the other. -/
theorem exec_append (s : CAN) (t u : List Ev) : exec s (t ++ u) = exec (exec s t) u := by
  simp [exec, List.foldl_append]

/-- The request handler hands exactly the response frame to the controller, in MOb 0. -/
theorem sent_request (s : CAN) (a : Samples) :
    sent s (CAN_INT_vect a) = [(0, response a)] := by
  simp only [CAN_INT_vect, idt1_power, idt2_power]
  simp [sent, step, CAN.store, CAN.write, CAN.onPage, CAN.MOBNB, CAN.INDX, CAN.AINC, upd,
    MOb.frame, MOb.idTag, MOb.rtrTag, MOb.DLC, uint8_t, ID_POWER_1, scale, Channel.num,
    Channel.den, Nat.shiftRight_eq_div_pow, List.range_succ, response, hi, lo]

/-- After the request handler MOb 0 holds the response frame and the value 0x48. -/
theorem request_mob0 (s : CAN) (a : Samples) :
    ((exec s (CAN_INT_vect a)).mob 0).frame = response a ∧
    ((exec s (CAN_INT_vect a)).mob 0).CANCDMOB = 0x48 := by
  simp only [CAN_INT_vect, idt1_power, idt2_power]
  simp [exec, step, CAN.store, CAN.write, CAN.onPage, CAN.MOBNB, CAN.INDX, CAN.AINC, upd,
    MOb.frame, MOb.idTag, MOb.rtrTag, MOb.DLC, uint8_t, ID_POWER_1, scale, Channel.num,
    Channel.den, Nat.shiftRight_eq_div_pow, List.range_succ, response, hi, lo]

/-- The request handler changes two registers of MOb 1: status and control. -/
theorem request_mob1 (s : CAN) (a : Samples) :
    (exec s (CAN_INT_vect a)).mob 1 =
      { s.mob 1 with CANSTMOB := 0x00, CANCDMOB := 0x80 } := by
  simp only [CAN_INT_vect, idt1_power, idt2_power]
  simp [exec, step, CAN.store, CAN.write, CAN.onPage, CAN.MOBNB, CAN.INDX, CAN.AINC, upd]

/-- The request handler leaves every message object other than 0 and 1 alone. -/
theorem request_mob_other (s : CAN) (a : Samples) (k : Nat) (h0 : k ≠ 0) (h1 : k ≠ 1) :
    (exec s (CAN_INT_vect a)).mob k = s.mob k := by
  simp only [CAN_INT_vect, idt1_power, idt2_power]
  simp [exec, step, CAN.store, CAN.write, CAN.onPage, CAN.MOBNB, CAN.INDX, CAN.AINC, upd,
    h0, h1]

/-- The request handler leaves the interrupt of MOb 1 enabled. -/
theorem request_CANIE2 (s : CAN) (a : Samples) :
    (exec s (CAN_INT_vect a)).CANIE2 = 0x02 := by
  simp only [CAN_INT_vect, idt1_power, idt2_power]
  simp [exec, step, CAN.store, CAN.write, CAN.onPage, CAN.MOBNB, CAN.INDX, CAN.AINC, upd]

/-- The events of the request handler before its first ADC read already give MOb 1 and
`CANIE2` their final values. -/
theorem request_rearm_first (s : CAN) (a : Samples) :
    (exec s (beforeAdc (CAN_INT_vect a))).mob 1 = (exec s (CAN_INT_vect a)).mob 1 ∧
    (exec s (beforeAdc (CAN_INT_vect a))).CANIE2 = 0x02 := by
  simp only [CAN_INT_vect, idt1_power, idt2_power]
  simp [beforeAdc, List.takeWhile, Ev.isAdc, exec, step, CAN.store, CAN.write, CAN.onPage,
    CAN.MOBNB, CAN.INDX, CAN.AINC, upd]

/-- The ADC reads of the request handler, in order. -/
theorem request_adc_reads (a : Samples) :
    (CAN_INT_vect a).filter Ev.isAdc =
      [ .adc .ADC_MUX_ADC7 a.v_12_1, .adc .ADC_MUX_ADC4 a.v_5,
        .adc .ADC_MUX_ADC2 a.v_bat, .adc .ADC_MUX_ADC3 a.i_bat ] := by
  simp [CAN_INT_vect, List.filter, Ev.isAdc]

/-- The events of the request handler before its first ADC read: `cli`, the LED pulse
and the four stores that re-arm MOb 1. -/
theorem request_rearm_events (a : Samples) :
    beforeAdc (CAN_INT_vect a) =
      [ .cli, .blink .yellow (some 50), .write .CANPAGE 0x10, .write .CANSTMOB 0x00,
        .write .CANCDMOB 0x80, .write .CANIE2 0x02 ] := by
  simp [beforeAdc, CAN_INT_vect, List.takeWhile, Ev.isAdc]

/-- The request handler body is the re-arm events, then the four ADC reads, then the
rest. -/
theorem request_rearm_then_adc (a : Samples) :
    CAN_INT_vect a =
      beforeAdc (CAN_INT_vect a) ++
      [ .adc .ADC_MUX_ADC7 a.v_12_1, .adc .ADC_MUX_ADC4 a.v_5,
        .adc .ADC_MUX_ADC2 a.v_bat, .adc .ADC_MUX_ADC3 a.i_bat ] ++
      (CAN_INT_vect a).drop 10 := by
  rw [request_rearm_events]
  simp [CAN_INT_vect]

/-- Below the threshold the periodic handler hands exactly the alert frame to the
controller, in MOb 2. -/
theorem sent_tick_low (s : CAN) (raw : Nat) (h : scale .batteryVoltage raw < MIN_VOLTAGE) :
    sent s (TIMER1_COMPA_vect raw) = [(2, alert raw)] := by
  have h1 : divAssign raw 613636 1000000 < MIN_VOLTAGE := h
  simp only [TIMER1_COMPA_vect, idt1_alert, idt2_alert, if_pos h1]
  simp [sent, step, CAN.store, CAN.write, CAN.read, CAN.onPage, CAN.MOBNB, CAN.INDX,
    CAN.AINC, upd, MOb.frame, MOb.idTag, MOb.rtrTag, MOb.DLC, uint8_t, ID_ALERT, scale,
    Channel.num, Channel.den, Nat.shiftRight_eq_div_pow, List.range_succ, alert, hi, lo]

/-- At or above the threshold the periodic handler hands nothing to the controller and
leaves every CAN register as it was. -/
theorem tick_high (s : CAN) (raw : Nat) (h : MIN_VOLTAGE ≤ scale .batteryVoltage raw) :
    sent s (TIMER1_COMPA_vect raw) = [] ∧ exec s (TIMER1_COMPA_vect raw) = s := by
  have h1 : ¬ divAssign raw 613636 1000000 < MIN_VOLTAGE := Nat.not_lt.mpr h
  simp only [TIMER1_COMPA_vect, if_neg h1]
  simp [sent, exec, step, CAN.store, CAN.write, CAN.read]

/-- The periodic handler leaves every message object other than 2 alone. -/
theorem tick_mob_other (s : CAN) (raw : Nat) (k : Nat) (h2 : k ≠ 2) :
    (exec s (TIMER1_COMPA_vect raw)).mob k = s.mob k := by
  simp only [TIMER1_COMPA_vect, idt1_alert, idt2_alert]
  split <;>
  simp [exec, step, CAN.store, CAN.write, CAN.read, CAN.onPage, CAN.MOBNB, CAN.INDX,
    CAN.AINC, upd, h2]

/-- The periodic handler does not touch `CANIE2`. -/
theorem tick_CANIE2 (s : CAN) (raw : Nat) :
    (exec s (TIMER1_COMPA_vect raw)).CANIE2 = s.CANIE2 := by
  simp only [TIMER1_COMPA_vect, idt1_alert, idt2_alert]
  split <;>
  simp [exec, step, CAN.store, CAN.write, CAN.read, CAN.onPage, CAN.MOBNB, CAN.INDX,
    CAN.AINC, upd]

/-- The control register of MOb 2 after the periodic handler is the old one or 0x42. -/
theorem tick_mob2 (s : CAN) (raw : Nat) :
    ((exec s (TIMER1_COMPA_vect raw)).mob 2).CANCDMOB = (s.mob 2).CANCDMOB ∨
    ((exec s (TIMER1_COMPA_vect raw)).mob 2).CANCDMOB = 0x42 := by
  simp only [TIMER1_COMPA_vect, idt1_alert, idt2_alert]
  split <;>
  simp [exec, step, CAN.store, CAN.write, CAN.read, CAN.onPage, CAN.MOBNB, CAN.INDX,
    CAN.AINC, upd]

/-- The registers `initCANMOB` gives MOb 1. -/
theorem initCANMOB_mob1 (s : CAN) :
    (exec s initCANMOB).mob 1 =
      { s.mob 1 with
        CANIDT4 := 0x04, CANIDT3 := 0x00, CANIDT2 := 0x20, CANIDT1 := 0x12
        CANIDM4 := 0x04, CANIDM3 := 0xFF, CANIDM2 := 0xFF, CANIDM1 := 0xFF
        CANCDMOB := 0x80 } := by
  simp only [initCANMOB, idt1_power, idt2_power]
  simp [exec, step, CAN.store, CAN.write, CAN.onPage, CAN.MOBNB, CAN.INDX, CAN.AINC, upd]

/-- The routine `initCANMOB` leaves the other message objects alone and enables the
interrupt of MOb 1. -/
theorem initCANMOB_other (s : CAN) (k : Nat) (h1 : k ≠ 1) :
    (exec s initCANMOB).mob k = s.mob k ∧ (exec s initCANMOB).CANIE2 = 0x02 := by
  simp only [initCANMOB, idt1_power, idt2_power]
  simp [exec, step, CAN.store, CAN.write, CAN.onPage, CAN.MOBNB, CAN.INDX, CAN.AINC, upd,
    h1]

/-- The routine `initCANBus` touches no message object. -/
theorem initCANBus_mob (SWRES : Nat) (s : CAN) (k : Nat) :
    (exec s (initCANBus SWRES)).mob k = s.mob k := by
  simp [initCANBus, exec, step, CAN.store, CAN.write, CAN.read]

set_option maxRecDepth 100000 in
/-- With the full 11-bit mask only the identifier 0x091 itself compares equal to it. -/
theorem xor_mask_power : ∀ i, i < 2048 → ((i ^^^ 145) &&& 2047 = 0 ↔ i = 145) := by
  decide!
/-! ## Invariants of the handlers -/

/-- Running a sequence of invocations: the first one, then the rest. -/
theorem run_cons (s : CAN) (h : Handler) (hs : List Handler) :
    run s (h :: hs) = run (exec s h.trace) hs := by
  simp [run, traceOf, exec_append]

/-- One handler invocation keeps the configuration of MOb 1 and its interrupt. -/
theorem handler_keeps_slot (s : CAN) (m : MOb) (h : Handler) (hm : m.CANCDMOB = 0x80)
    (hs : (s.mob 1).sameConfig m ∧ s.CANIE2 = 0x02) :
    ((exec s h.trace).mob 1).sameConfig m ∧ (exec s h.trace).CANIE2 = 0x02 := by
  obtain ⟨⟨h1, h2, h3, h4, h5, h6, h7, h8, _, h10⟩, hie⟩ := hs
  cases h with
  | request a =>
    refine ⟨?_, request_CANIE2 s a⟩
    simp only [Handler.trace, request_mob1, MOb.sameConfig]
    exact ⟨h1, h2, h3, h4, h5, h6, h7, h8, hm.symm, h10⟩
  | tick raw =>
    simp only [Handler.trace, tick_mob_other s raw 1 (by decide), tick_CANIE2]
    exact ⟨⟨h1, h2, h3, h4, h5, h6, h7, h8, ‹_›, h10⟩, hie⟩

/-- A sequence of handler invocations keeps the configuration of MOb 1 and its
interrupt. -/
theorem run_keeps_slot (m : MOb) (hm : m.CANCDMOB = 0x80) (hs : List Handler) :
    ∀ s : CAN, ((s.mob 1).sameConfig m ∧ s.CANIE2 = 0x02) →
      ((run s hs).mob 1).sameConfig m ∧ (run s hs).CANIE2 = 0x02 := by
  induction hs with
  | nil => intro s h; simpa [run, traceOf, exec] using h
  | cons h hs ih =>
    intro s hinv
    rw [run_cons]
    exact ih _ (handler_keeps_slot s m h hm hinv)

/-- One handler invocation puts neither MOb 0 nor MOb 2 in a reception mode. -/
theorem handler_keeps_idle (s : CAN) (h : Handler)
    (hs : (s.mob 0).rxMode = false ∧ (s.mob 2).rxMode = false) :
    ((exec s h.trace).mob 0).rxMode = false ∧ ((exec s h.trace).mob 2).rxMode = false := by
  cases h with
  | request a =>
    refine ⟨?_, ?_⟩
    · simp [Handler.trace, MOb.rxMode, MOb.CONMOB, (request_mob0 s a).2]
    · simpa [Handler.trace, request_mob_other s a 2 (by decide) (by decide)] using hs.2
  | tick raw =>
    refine ⟨?_, ?_⟩
    · simpa [Handler.trace, tick_mob_other s raw 0 (by decide)] using hs.1
    · rcases tick_mob2 s raw with h2 | h2
      · have := hs.2
        simp only [Handler.trace, MOb.rxMode, MOb.CONMOB, h2] at this ⊢
        exact this
      · simp [Handler.trace, MOb.rxMode, MOb.CONMOB, h2]

/-- A sequence of handler invocations puts neither MOb 0 nor MOb 2 in a reception
mode. -/
theorem run_keeps_idle (hs : List Handler) :
    ∀ s : CAN, ((s.mob 0).rxMode = false ∧ (s.mob 2).rxMode = false) →
      ((run s hs).mob 0).rxMode = false ∧ ((run s hs).mob 2).rxMode = false := by
  induction hs with
  | nil => intro s h; simpa [run, traceOf, exec] using h
  | cons h hs ih =>
    intro s hinv
    rw [run_cons]
    exact ih _ (handler_keeps_idle s h hinv)

/-- The receive slot right after initialisation. -/
theorem init_mob1 (SWRES : Nat) (s : CAN) :
    (exec s (init SWRES)).mob 1 =
      { s.mob 1 with
        CANIDT4 := 0x04, CANIDT3 := 0x00, CANIDT2 := 0x20, CANIDT1 := 0x12
        CANIDM4 := 0x04, CANIDM3 := 0xFF, CANIDM2 := 0xFF, CANIDM1 := 0xFF
        CANCDMOB := 0x80 } := by
  rw [init, exec_append, initCANMOB_mob1, initCANBus_mob]

/-- Initialisation leaves the other message objects as they were at power on and
enables the interrupt of MOb 1. -/
theorem init_other (SWRES : Nat) (s : CAN) (k : Nat) (h1 : k ≠ 1) :
    (exec s (init SWRES)).mob k = s.mob k ∧ (exec s (init SWRES)).CANIE2 = 0x02 := by
  rw [init, exec_append]
  have h := initCANMOB_other (exec s (initCANBus SWRES)) k h1
  rw [initCANBus_mob] at h
  exact h

/-- After initialisation and any sequence of handler invocations, MOb 1 has the
registers initialisation gave it, up to the status register, and its interrupt is
enabled. -/
theorem slot_after_run (SWRES : Nat) (s0 : CAN) (hs : List Handler) :
    ((run (exec s0 (init SWRES)) hs).mob 1).sameConfig ((exec s0 (init SWRES)).mob 1) ∧
    (run (exec s0 (init SWRES)) hs).CANIE2 = 0x02 := by
  apply run_keeps_slot
  · rw [init_mob1]
  · exact ⟨⟨rfl, rfl, rfl, rfl, rfl, rfl, rfl, rfl, rfl, rfl⟩, (init_other SWRES s0 0 (by decide)).2⟩

/-! ## Order of stores -/

/-- Running the monitor over two sequences of events one after the other. -/
theorem Audit.run_append (a : Audit) (t u : List Ev) :
    a.run (t ++ u) = (a.run t).run u := by
  simp [Audit.run, List.foldl_append]

/-- In the request handler the store that enables transmission comes after the stores
of the identifier registers and of the eight payload bytes. -/
theorem fill_request (a : Audit) (adc : Samples) (h : a.sendAfterFill = true) :
    (a.run (CAN_INT_vect adc)).sendAfterFill = true := by
  simp only [CAN_INT_vect]
  simp [Audit.run, Audit.step, Audit.filled, Reg.access, step, CAN.store, CAN.write,
    CAN.onPage, CAN.MOBNB, CAN.INDX, CAN.AINC, upd, h, List.range_succ]

/-- In the periodic handler the store that enables transmission comes after the stores
of the identifier registers and of the two payload bytes. -/
theorem fill_tick (a : Audit) (raw : Nat) (h : a.sendAfterFill = true) :
    (a.run (TIMER1_COMPA_vect raw)).sendAfterFill = true := by
  simp only [TIMER1_COMPA_vect]
  split <;>
  simp [Audit.run, Audit.step, Audit.filled, Reg.access, step, CAN.store, CAN.read,
    CAN.write, CAN.onPage, CAN.MOBNB, CAN.INDX, CAN.AINC, upd, h, List.range_succ]

/-- Over any sequence of handler invocations every store that enables transmission
comes after the stores of that frame. -/
theorem fill_run (hs : List Handler) :
    ∀ a : Audit, a.sendAfterFill = true → (a.run (traceOf hs)).sendAfterFill = true := by
  induction hs with
  | nil => intro a h; simpa [traceOf, Audit.run] using h
  | cons h hs ih =>
    intro a ha
    rw [traceOf, Audit.run_append]
    apply ih
    cases h with
    | request adc => exact fill_request a adc ha
    | tick raw => exact fill_tick a raw ha

/-- Within one request handler invocation no identifier or payload store follows the
store that enables transmission. -/
theorem fresh_request (s : CAN) (adc : Samples) :
    ((Audit.start s).run (CAN_INT_vect adc)).noWriteWhileSend = true := by
  simp only [CAN_INT_vect]
  simp [Audit.start, Audit.run, Audit.step, Audit.filled, Reg.access, step, CAN.store,
    CAN.write, CAN.onPage, CAN.MOBNB, CAN.INDX, CAN.AINC, upd, List.range_succ]

/-- Within one periodic handler invocation no identifier or payload store follows the
store that enables transmission. -/
theorem fresh_tick (s : CAN) (raw : Nat) :
    ((Audit.start s).run (TIMER1_COMPA_vect raw)).noWriteWhileSend = true := by
  simp only [TIMER1_COMPA_vect]
  split <;>
  simp [Audit.start, Audit.run, Audit.step, Audit.filled, Reg.access, step, CAN.store,
    CAN.read, CAN.write, CAN.onPage, CAN.MOBNB, CAN.INDX, CAN.AINC, upd, List.range_succ]
/-! ## The claims -/

/-- Claim C1.  For every four raw samples read on ADC7, ADC4, ADC2 and ADC3 and from
every state of the controller, one run of `ISR(CAN_INT_vect)` hands exactly one frame
to the controller for transmission, in MOb 0: identifier `ID_POWER_1` (0x091), a data
frame, data length code 8, the payload being the high byte then the low byte of the
scaled bus 1, bus 2, battery voltage and battery current values.  Afterwards MOb 0 is
enabled for transmission and holds that frame, and each byte pair is the 16-bit scaled
value. -/
theorem request_emits_response (s : CAN) (adc : Samples) :
    sent s (CAN_INT_vect adc) =
      [(0, { id := ID_POWER_1, rtr := false, dlc := 8,
             data :=
              [ hi (scale .bus1 adc.v_12_1), lo (scale .bus1 adc.v_12_1),
                hi (scale .bus2 adc.v_5), lo (scale .bus2 adc.v_5),
                hi (scale .batteryVoltage adc.v_bat), lo (scale .batteryVoltage adc.v_bat),
                hi (scale .batteryCurrent adc.i_bat),
                lo (scale .batteryCurrent adc.i_bat) ] })] ∧
    ((exec s (CAN_INT_vect adc)).mob 0).txEnabled = true ∧
    ((exec s (CAN_INT_vect adc)).mob 0).frame = response adc ∧
    ID_POWER_1 = 0x091 ∧
    256 * hi (scale .bus1 adc.v_12_1) + lo (scale .bus1 adc.v_12_1)
      = scale .bus1 adc.v_12_1 ∧
    256 * hi (scale .bus2 adc.v_5) + lo (scale .bus2 adc.v_5) = scale .bus2 adc.v_5 ∧
    256 * hi (scale .batteryVoltage adc.v_bat) + lo (scale .batteryVoltage adc.v_bat)
      = scale .batteryVoltage adc.v_bat ∧
    256 * hi (scale .batteryCurrent adc.i_bat) + lo (scale .batteryCurrent adc.i_bat)
      = scale .batteryCurrent adc.i_bat := by
  refine ⟨sent_request s adc, ?_, (request_mob0 s adc).1, rfl, ?_, ?_, ?_, ?_⟩
  · simp [MOb.txEnabled, MOb.CONMOB, (request_mob0 s adc).2]
  all_goals
    simp only [hi, lo, scale, divAssign]
    omega

/-- Claim C2.  For every raw battery sample and from every state of the controller, one
run of `ISR(TIMER1_COMPA_vect)` either finds the scaled battery voltage below
`MIN_VOLTAGE` (1440) and hands exactly one frame to the controller, a data frame with
identifier `ID_ALERT` (0x080), data length code 2 and the high byte then the low byte
of the scaled voltage as payload, or finds it at least 1440, hands no frame to the
controller and leaves every CAN register unchanged. -/
theorem tick_alert_or_silent (s : CAN) (raw : Nat) :
    (scale .batteryVoltage raw < 1440 ∧
      sent s (TIMER1_COMPA_vect raw) =
        [(2, { id := 0x080, rtr := false, dlc := 2,
               data := [ hi (scale .batteryVoltage raw),
                         lo (scale .batteryVoltage raw) ] })]) ∨
    (1440 ≤ scale .batteryVoltage raw ∧
      sent s (TIMER1_COMPA_vect raw) = [] ∧
      exec s (TIMER1_COMPA_vect raw) = s) := by
  rcases Nat.lt_or_ge (scale .batteryVoltage raw) MIN_VOLTAGE with h | h
  · exact Or.inl ⟨h, sent_tick_low s raw h⟩
  · exact Or.inr ⟨h, tick_high s raw h⟩

/-- Claim C3.  After `initCANMOB`, from every state of the controller, MOb 1 is enabled
for reception (`CANCDMOB` = 0x80) and takes a standard frame if and only if the frame
is a remote request whose identifier is `ID_POWER_1` (0x091); the mask registers are
0xFF, 0xFF, 0xFF and 0x04, so all eleven identifier mask bits and the remote-request
mask bit are set. -/
theorem initCANMOB_accepts_only_request (s : CAN) (f : Frame) (hid : f.id < 2048) :
    (((exec s initCANMOB).mob 1).accepts f = true ↔ (f.rtr = true ∧ f.id = ID_POWER_1)) ∧
    ((exec s initCANMOB).mob 1).CANCDMOB = 0x80 ∧
    ((exec s initCANMOB).mob 1).idTag = 0x091 ∧
    ((exec s initCANMOB).mob 1).rtrTag = 1 ∧
    ((exec s initCANMOB).mob 1).idMask = 0x7FF ∧
    ((exec s initCANMOB).mob 1).rtrMask = 1 ∧
    ((exec s initCANMOB).mob 1).CANIDM1 = 0xFF ∧
    ((exec s initCANMOB).mob 1).CANIDM2 = 0xFF ∧
    ((exec s initCANMOB).mob 1).CANIDM3 = 0xFF ∧
    ((exec s initCANMOB).mob 1).CANIDM4 = 0x04 := by
  rw [initCANMOB_mob1]
  have hx := xor_mask_power f.id hid
  refine ⟨?_, rfl, ?_, ?_, ?_, ?_, rfl, rfl, rfl, rfl⟩
  · cases hr : f.rtr <;>
      simp [MOb.accepts, MOb.CONMOB, MOb.idTag, MOb.idMask, MOb.rtrMask, MOb.rtrTag,
        ID_POWER_1, hx, hr]
  · simp [MOb.idTag]
  · simp [MOb.rtrTag]
  · simp [MOb.idMask]
  · simp [MOb.rtrMask]

/-- A remote request with identifier 0x091 is a frame the claim C3 speaks of, and MOb 1
takes it. -/
theorem initCANMOB_accepts_only_request_witness :
    (0x091 : Nat) < 2048 ∧
    ((exec CAN.cleared initCANMOB).mob 1).accepts
      { id := 0x091, rtr := true, dlc := 0, data := [] } = true :=
  ⟨by decide,
    (initCANMOB_accepts_only_request CAN.cleared
      { id := 0x091, rtr := true, dlc := 0, data := [] } (by decide)).1.mpr ⟨rfl, rfl⟩⟩

/-- Claim C4 as stated fails: for the raw sample 3 on bus 1 the handlers compute 3,
while 3 / 0.824121 = 3.64 rounded to the nearest integer is 4. -/
theorem scale_ne_round_bus1_3 : (scale .bus1 3 : ℤ) ≠ specScale .bus1 3 := by
  have h1 : scale .bus1 3 = 3 := by decide!
  have h2 : specScale .bus1 3 = 4 := by
    have hr : round (((3 : ℕ) : ℚ) / Channel.bus1.divisor) = 4 := by
      rw [round_eq, Int.floor_eq_iff]
      simp only [Channel.divisor, Channel.num, Channel.den]
      constructor <;> norm_num
    rw [specScale, hr]
    rfl
  rw [h1, h2]
  norm_num

/-- Claim C4, amended.  For every raw sample in [0,1023] and each of the four channel
divisors, the scaled value the handlers compute is the integer part of `raw / d`: the
quotient is cut toward zero, not rounded to the nearest integer; it stays below
65536, so the 16-bit truncation changes nothing. -/
theorem scale_eq_floor (c : Channel) (raw : Nat) (h : raw < 1024) :
    (scale c raw : ℤ) = ⌊(raw : ℚ) / c.divisor⌋ ∧ scale c raw < 65536 := by
  have h1 := scale_eq_div c raw h
  have h2 := div_le_1667 c raw h
  refine ⟨?_, by omega⟩
  have hden : (c.den : ℚ) ≠ 0 := by cases c <;> norm_num [Channel.den]
  have hq : (raw : ℚ) / c.divisor = ((raw * c.den : ℕ) : ℚ) / (c.num : ℕ) := by
    rw [Channel.divisor, div_div_eq_mul_div]
    push_cast
    ring
  rw [hq, Rat.floor_natCast_div_natCast, h1]
  norm_cast

/-- The raw sample 900 of the battery voltage channel lies in the range of claim C4
and scales to the integer part of 900 / 0.613636. -/
theorem scale_eq_floor_witness :
    (900 : Nat) < 1024 ∧
    (scale .batteryVoltage 900 : ℤ) = ⌊((900 : ℕ) : ℚ) / Channel.batteryVoltage.divisor⌋ :=
  ⟨by decide, (scale_eq_floor .batteryVoltage 900 (by decide)).1⟩

/-- Claim C5.  With the raw battery sample 900 the scaled battery voltage is 1466 and
the periodic handler hands no frame to the controller; with the raw sample 850 the
scaled value is 1385 and the handler hands one alert frame with identifier `ID_ALERT`
and the payload 0x05, 0x69 to the controller. -/
theorem tick_scenario (s : CAN) :
    scale .batteryVoltage 900 = 1466 ∧
    sent s (TIMER1_COMPA_vect 900) = [] ∧
    scale .batteryVoltage 850 = 1385 ∧
    sent s (TIMER1_COMPA_vect 850) =
      [(2, { id := ID_ALERT, rtr := false, dlc := 2, data := [0x05, 0x69] })] := by
  have h900 : scale .batteryVoltage 900 = 1466 := by decide!
  have h850 : scale .batteryVoltage 850 = 1385 := by decide!
  refine ⟨h900, ?_, h850, ?_⟩
  · exact (tick_high s 900 (by rw [h900]; decide)).1
  · rw [sent_tick_low s 850 (by rw [h850]; decide)]
    simp [alert, h850, hi, lo]

/-- Claim C6 as stated fails: the initialisation routines never store to `CANCDMOB` of
MOb 0 or MOb 2, so from a power-on state whose MOb 2 holds 0x80 there, MOb 1 and MOb 2
are both in a reception mode right after initialisation and still after a request, a
tick and another request. -/
theorem two_receive_slots_from_stale_mob2 :
    ((exec CAN.staleMob2 (init 0)).mob 1).rxMode = true ∧
    ((exec CAN.staleMob2 (init 0)).mob 2).rxMode = true ∧
    ((run (exec CAN.staleMob2 (init 0))
      [.request ⟨512, 512, 900, 10⟩, .tick 900, .request ⟨512, 512, 900, 10⟩]).mob 1).rxMode
        = true ∧
    ((run (exec CAN.staleMob2 (init 0))
      [.request ⟨512, 512, 900, 10⟩, .tick 900, .request ⟨512, 512, 900, 10⟩]).mob 2).rxMode
        = true := by
  decide!

/-- Claim C6, amended.  Take any power-on state in which MOb 0 and MOb 2 are not in a
reception mode (the initialisation routines do not store to their `CANCDMOB`).  After
`initCANBus` and `initCANMOB` and any finite sequence of remote-request and periodic
handler invocations, with arbitrary ADC samples, exactly one of the message objects
0, 1, 2 is in a reception mode, and it is MOb 1: `CANCDMOB` = 0x80, identifier tag
`ID_POWER_1`, remote-request tag 1, all identifier mask bits and the remote-request
mask bit set, and `CANIE2` = 0x02, the interrupt of MOb 1.  Moreover the request
handler itself restores this from any state `s` of the controller: after it MOb 1 has
status 0 and `CANCDMOB` = 0x80, `CANIE2` = 0x02, and MOb 0 is enabled for transmission,
not reception. -/
theorem one_receive_slot (SWRES : Nat) (s0 : CAN) (hs : List Handler) (s : CAN)
    (adc : Samples)
    (h0 : (s0.mob 0).rxMode = false) (h2 : (s0.mob 2).rxMode = false) :
    ((run (exec s0 (init SWRES)) hs).mob 0).rxMode = false ∧
    ((run (exec s0 (init SWRES)) hs).mob 1).rxMode = true ∧
    ((run (exec s0 (init SWRES)) hs).mob 2).rxMode = false ∧
    ((run (exec s0 (init SWRES)) hs).mob 1).CANCDMOB = 0x80 ∧
    ((run (exec s0 (init SWRES)) hs).mob 1).idTag = ID_POWER_1 ∧
    ((run (exec s0 (init SWRES)) hs).mob 1).rtrTag = 1 ∧
    ((run (exec s0 (init SWRES)) hs).mob 1).idMask = 0x7FF ∧
    ((run (exec s0 (init SWRES)) hs).mob 1).rtrMask = 1 ∧
    (run (exec s0 (init SWRES)) hs).CANIE2 = 0x02 ∧
    (exec s (CAN_INT_vect adc)).mob 1
      = { s.mob 1 with CANSTMOB := 0x00, CANCDMOB := 0x80 } ∧
    ((exec s (CAN_INT_vect adc)).mob 1).rxMode = true ∧
    (exec s (CAN_INT_vect adc)).CANIE2 = 0x02 ∧
    ((exec s (CAN_INT_vect adc)).mob 0).CANCDMOB = 0x48 ∧
    ((exec s (CAN_INT_vect adc)).mob 0).rxMode = false ∧
    ((exec s (CAN_INT_vect adc)).mob 2).rxMode = (s.mob 2).rxMode := by
  have hidle := run_keeps_idle hs (exec s0 (init SWRES))
    (by rw [(init_other SWRES s0 0 (by decide)).1, (init_other SWRES s0 2 (by decide)).1]
        exact ⟨h0, h2⟩)
  obtain ⟨⟨e1, e2, _, e4, e5, e6, _, e8, e9, _⟩, hie⟩ := slot_after_run SWRES s0 hs
  rw [init_mob1] at e1 e2 e4 e5 e6 e8 e9
  simp only at e1 e2 e4 e5 e6 e8 e9
  refine ⟨hidle.1, ?_, hidle.2, e9, ?_, ?_, ?_, ?_, hie, request_mob1 s adc, ?_,
    request_CANIE2 s adc, (request_mob0 s adc).2, ?_, ?_⟩
  · simp [MOb.rxMode, MOb.CONMOB, e9]
  · simp [MOb.idTag, e1, e2, ID_POWER_1]
  · simp [MOb.rtrTag, e4]
  · simp [MOb.idMask, e5, e6]
  · simp [MOb.rtrMask, e8]
  · simp [MOb.rxMode, MOb.CONMOB, request_mob1]
  · simp [MOb.rxMode, MOb.CONMOB, (request_mob0 s adc).2]
  · rw [request_mob_other s adc 2 (by decide) (by decide)]

/-- From the cleared register file, after initialisation, a request and a tick, MOb 1
is the one message object among 0, 1, 2 in a reception mode. -/
theorem one_receive_slot_witness :
    (CAN.cleared.mob 0).rxMode = false ∧ (CAN.cleared.mob 2).rxMode = false ∧
    ((run (exec CAN.cleared (init 0))
      [.request ⟨512, 512, 900, 10⟩, .tick 850]).mob 0).rxMode = false ∧
    ((run (exec CAN.cleared (init 0))
      [.request ⟨512, 512, 900, 10⟩, .tick 850]).mob 1).rxMode = true ∧
    ((run (exec CAN.cleared (init 0))
      [.request ⟨512, 512, 900, 10⟩, .tick 850]).mob 2).rxMode = false :=
  ⟨by decide, by decide,
    (one_receive_slot 0 CAN.cleared [.request ⟨512, 512, 900, 10⟩, .tick 850]
      CAN.cleared ⟨512, 512, 900, 10⟩ (by decide) (by decide)).1,
    (one_receive_slot 0 CAN.cleared [.request ⟨512, 512, 900, 10⟩, .tick 850]
      CAN.cleared ⟨512, 512, 900, 10⟩ (by decide) (by decide)).2.1,
    (one_receive_slot 0 CAN.cleared [.request ⟨512, 512, 900, 10⟩, .tick 850]
      CAN.cleared ⟨512, 512, 900, 10⟩ (by decide) (by decide)).2.2.1⟩

/-- Claim C7.  From every state `s` of the controller, so whatever earlier invocations
of either handler left behind, a remote-request handler invocation hands exactly the
response frame of its own four samples to the controller, in MOb 0, and MOb 0 then
holds that frame.  The handler body begins with `cli`, the LED pulse and the four
re-arm stores `CANPAGE` = 0x10, `CANSTMOB` = 0x00, `CANCDMOB` = 0x80, `CANIE2` = 0x02;
the four ADC reads follow them, and there is no other ADC read.  These first events
alone already give MOb 1 and `CANIE2` the values they have at the end of the handler:
MOb 1 as before with status 0 and `CANCDMOB` = 0x80, and `CANIE2` = 0x02.  After
initialisation and any sequence of handler invocations this is MOb 1 as
initialisation left it with the status cleared: reception mode, identifier tag
`ID_POWER_1`, remote-request tag 1, full mask, interrupt enabled. -/
theorem request_independent_and_rearmed (SWRES : Nat) (s0 : CAN) (hs : List Handler)
    (s : CAN) (adc : Samples) :
    sent s (CAN_INT_vect adc) = [(0, response adc)] ∧
    ((exec s (CAN_INT_vect adc)).mob 0).frame = response adc ∧
    beforeAdc (CAN_INT_vect adc) =
      [ .cli, .blink .yellow (some 50), .write .CANPAGE 0x10, .write .CANSTMOB 0x00,
        .write .CANCDMOB 0x80, .write .CANIE2 0x02 ] ∧
    CAN_INT_vect adc =
      beforeAdc (CAN_INT_vect adc) ++
      [ .adc .ADC_MUX_ADC7 adc.v_12_1, .adc .ADC_MUX_ADC4 adc.v_5,
        .adc .ADC_MUX_ADC2 adc.v_bat, .adc .ADC_MUX_ADC3 adc.i_bat ] ++
      (CAN_INT_vect adc).drop 10 ∧
    (CAN_INT_vect adc).filter Ev.isAdc =
      [ .adc .ADC_MUX_ADC7 adc.v_12_1, .adc .ADC_MUX_ADC4 adc.v_5,
        .adc .ADC_MUX_ADC2 adc.v_bat, .adc .ADC_MUX_ADC3 adc.i_bat ] ∧
    (exec s (beforeAdc (CAN_INT_vect adc))).mob 1
      = { s.mob 1 with CANSTMOB := 0x00, CANCDMOB := 0x80 } ∧
    (exec s (beforeAdc (CAN_INT_vect adc))).CANIE2 = 0x02 ∧
    (exec s (CAN_INT_vect adc)).mob 1
      = { s.mob 1 with CANSTMOB := 0x00, CANCDMOB := 0x80 } ∧
    (exec s (CAN_INT_vect adc)).CANIE2 = 0x02 ∧
    sent (run (exec s0 (init SWRES)) hs) (CAN_INT_vect adc) = [(0, response adc)] ∧
    ((exec (run (exec s0 (init SWRES)) hs) (CAN_INT_vect adc)).mob 0).frame
      = response adc ∧
    (exec (run (exec s0 (init SWRES)) hs) (CAN_INT_vect adc)).mob 1
      = { (exec s0 (init SWRES)).mob 1 with CANSTMOB := 0x00 } ∧
    ((exec (run (exec s0 (init SWRES)) hs) (CAN_INT_vect adc)).mob 1).CANSTMOB = 0x00 ∧
    ((exec (run (exec s0 (init SWRES)) hs) (CAN_INT_vect adc)).mob 1).CANCDMOB = 0x80 ∧
    ((exec (run (exec s0 (init SWRES)) hs) (CAN_INT_vect adc)).mob 1).idTag
      = ID_POWER_1 ∧
    ((exec (run (exec s0 (init SWRES)) hs) (CAN_INT_vect adc)).mob 1).rtrTag = 1 ∧
    ((exec (run (exec s0 (init SWRES)) hs) (CAN_INT_vect adc)).mob 1).idMask = 0x7FF ∧
    ((exec (run (exec s0 (init SWRES)) hs) (CAN_INT_vect adc)).mob 1).rtrMask = 1 ∧
    (exec (run (exec s0 (init SWRES)) hs) (CAN_INT_vect adc)).CANIE2 = 0x02 ∧
    (exec (run (exec s0 (init SWRES)) hs) (beforeAdc (CAN_INT_vect adc))).mob 1
      = (exec (run (exec s0 (init SWRES)) hs) (CAN_INT_vect adc)).mob 1 ∧
    (exec (run (exec s0 (init SWRES)) hs) (beforeAdc (CAN_INT_vect adc))).CANIE2
      = 0x02 := by
  obtain ⟨⟨e1, e2, e3, e4, e5, e6, e7, e8, e9, e10⟩, _⟩ := slot_after_run SWRES s0 hs
  have hm : (exec (run (exec s0 (init SWRES)) hs) (CAN_INT_vect adc)).mob 1
      = { (exec s0 (init SWRES)).mob 1 with CANSTMOB := 0x00 } := by
    have e0 : ((exec s0 (init SWRES)).mob 1).CANCDMOB = 0x80 := by rw [init_mob1]
    rw [request_mob1]
    simp only [MOb.mk.injEq]
    exact ⟨e1, e2, e3, e4, e5, e6, e7, e8, trivial, e0.symm, e10⟩
  have hb := request_rearm_first (run (exec s0 (init SWRES)) hs) adc
  have hbs := request_rearm_first s adc
  refine ⟨sent_request s adc, (request_mob0 s adc).1, request_rearm_events adc,
    request_rearm_then_adc adc, request_adc_reads adc, ?_, hbs.2, request_mob1 s adc,
    request_CANIE2 s adc, sent_request _ adc, (request_mob0 _ adc).1, hm, ?_, ?_, ?_, ?_,
    ?_, ?_, request_CANIE2 _ adc, hb.1, hb.2⟩
  · rw [hbs.1, request_mob1]
  all_goals rw [hm, init_mob1]
  all_goals simp [MOb.idTag, MOb.rtrTag, MOb.idMask, MOb.rtrMask, ID_POWER_1]

/-- Claim C8.  For each of the four channel divisors the scaled value is monotone in
the raw sample on [0,1023]. -/
theorem scale_monotone (c : Channel) (r1 r2 : Nat) (h12 : r1 ≤ r2) (h2 : r2 < 1024) :
    scale c r1 ≤ scale c r2 := by
  rw [scale_eq_div c r1 (by omega), scale_eq_div c r2 h2]
  exact Nat.div_le_div_right (Nat.mul_le_mul_right _ h12)

/-- The raw samples 3 and 4 on bus 1 are ordered, in range, and so are their scaled
values. -/
theorem scale_monotone_witness :
    (3 : Nat) ≤ 4 ∧ (4 : Nat) < 1024 ∧ scale .bus1 3 ≤ scale .bus1 4 :=
  ⟨by decide, by decide, scale_monotone .bus1 3 4 (by decide) (by decide)⟩

/-- Claim C9 as stated fails: in the stores of two remote-request handler invocations
after initialisation, the identifier and payload stores of the second invocation go
to MOb 0 while its `CANCDMOB` still holds 0x48, the value that enabled the first
transmission. -/
theorem second_request_writes_marked_mob :
    ordered (exec CAN.cleared (init 0))
      (traceOf [.request ⟨0, 0, 0, 0⟩, .request ⟨0, 0, 0, 0⟩]) = false := by
  decide

/-- Claim C9, amended.  Over any sequence of handler invocations after initialisation
every store that enables transmission (0x48 to MOb 0, 0x42 to MOb 2) comes after the
stores of the four identifier registers and of all payload bytes of that frame (8 for
the response, 2 for the alert) to the same message object, made since that object was
last enabled; and within one invocation, from any state, no identifier or payload
store goes to a message object after the store that enabled its transmission. -/
theorem send_follows_fill (SWRES : Nat) (s0 : CAN) (hs : List Handler) (s : CAN)
    (h : Handler) :
    ((Audit.start (exec s0 (init SWRES))).run (traceOf hs)).sendAfterFill = true ∧
    ordered s h.trace = true := by
  refine ⟨fill_run hs _ rfl, ?_⟩
  cases h with
  | request adc =>
    simp [ordered, Handler.trace, fresh_request, fill_request (Audit.start s) adc rfl]
  | tick raw =>
    simp [ordered, Handler.trace, fresh_tick, fill_tick (Audit.start s) raw rfl]

/-- Claim C10.  For every raw battery sample in [0,1023] the periodic handler hands the
alert frame to the controller exactly when the sample is at most 883, and nothing
exactly when it is above; the sample 883 scales to 1438 and 884 to 1440; the integer
part of the floating point quotient is at most 1667, so the conversion to `uint16_t`
does not overflow. -/
theorem alert_boundary (s : CAN) (raw : Nat) (h : raw < 1024) :
    (sent s (TIMER1_COMPA_vect raw) = [(2, alert raw)] ↔ raw ≤ 883) ∧
    (sent s (TIMER1_COMPA_vect raw) = [] ↔ 883 < raw) ∧
    scale .batteryVoltage 883 = 1438 ∧
    scale .batteryVoltage 884 = 1440 ∧
    truncDiv DBL_MANT_DIG raw 613636 1000000 ≤ 1667 ∧
    scale .batteryVoltage raw ≤ 1667 := by
  have hs := scale_eq_div .batteryVoltage raw h
  have ht := truncDiv_eq_div .batteryVoltage raw h
  have hle := div_le_1667 .batteryVoltage raw h
  simp only [Channel.num, Channel.den] at hs ht hle
  have h883 : scale .batteryVoltage 883 = 1438 := by
    rw [scale_eq_div _ _ (by decide)]; rfl
  have h884 : scale .batteryVoltage 884 = 1440 := by
    rw [scale_eq_div _ _ (by decide)]; rfl
  refine ⟨?_, ?_, h883, h884, by omega, by omega⟩
  · rcases Nat.lt_or_ge (scale .batteryVoltage raw) MIN_VOLTAGE with hlt | hge
    · rw [sent_tick_low s raw hlt]
      simp only [MIN_VOLTAGE] at hlt
      constructor
      · intro _; omega
      · intro _; trivial
    · rw [(tick_high s raw hge).1]
      simp only [MIN_VOLTAGE] at hge
      constructor
      · intro hc; cases hc
      · intro _; omega
  · rcases Nat.lt_or_ge (scale .batteryVoltage raw) MIN_VOLTAGE with hlt | hge
    · rw [sent_tick_low s raw hlt]
      simp only [MIN_VOLTAGE] at hlt
      constructor
      · intro hc; cases hc
      · intro _; omega
    · rw [(tick_high s raw hge).1]
      simp only [MIN_VOLTAGE] at hge
      constructor
      · intro _; omega
      · intro _; trivial

/-- The raw sample 883 is in range and the periodic handler hands the alert frame to
the controller for it. -/
theorem alert_boundary_witness :
    (883 : Nat) < 1024 ∧ sent CAN.cleared (TIMER1_COMPA_vect 883) = [(2, alert 883)] :=
  ⟨by decide, (alert_boundary CAN.cleared 883 (by decide)).1.mpr (by decide)⟩
end PowerBoard
